import Mathlib

/-!
Verification development for the stromboli-ts client library.

The definitions below are a shallow embedding of `src/client.ts` and
`src/errors.ts`.  JavaScript values that can appear as response bodies or
thrown causes are modelled by the inductive `Json` type (JS `undefined` and
host objects other than plain objects/arrays are not modelled; none of the
verified properties depend on them, and numbers are modelled as integers).
Stateful code (the retry loop, the SSE decoder, the job poller, the auth
token field) is embedded as explicit state passing: the outcome of each
transport attempt / poll / chunk read is an explicit input, and the
observable behaviour (result, attempt count, delays, emitted events,
notifications) is the output.
-/

/-- Model of a JavaScript (JSON-like) runtime value. -/
inductive Json where
  | null : Json
  | str (s : String) : Json
  | num (n : Int) : Json
  | bool (b : Bool) : Json
  | arr (xs : List Json) : Json
  | obj (fields : List (String × Json)) : Json

mutual

/-- Model of the JavaScript `String(x)` conversion, as used on the
`error` field of a response body in `errors.ts`.
Arrays stringify via `Array.prototype.join(",")`, in which `null`
elements become the empty string; plain objects give `[object Object]`. -/
def jsString : Json → String
  | .null => "null"
  | .str s => s
  | .num n => n.repr
  | .bool b => if b then "true" else "false"
  | .arr xs => jsStringJoin xs
  | .obj _ => "[object Object]"

/-- Elements of an array joined with `,`; a `null` element contributes
the empty string (JS `Array.prototype.join` semantics). -/
def jsStringJoin : List Json → String
  | [] => ""
  | [x] => match x with
    | .null => ""
    | x => jsString x
  | x :: xs =>
    (match x with
      | .null => ""
      | x => jsString x) ++ "," ++ jsStringJoin xs

end

/-- Shallow embedding of the `StromboliError` class of `src/errors.ts`:
a message, a discriminator `code`, an optional HTTP `status`, and an
optional `cause` (the raw body or thrown value). -/
structure StromboliError where
  message : String
  code : String
  status : Option Nat := none
  cause : Option Json := none

/-- Look up the `error` field of a JS value: defined exactly when
`typeof body === "object" && body !== null && "error" in body`
holds, i.e. when the value is a plain object with an `error` key
(arrays have no `error` property; `null` is excluded explicitly). -/
def Json.errField : Json → Option Json
  | .obj fields => fields.lookup "error"
  | _ => none

/-- Embedding of `StromboliError.fromResponse(status, body)`
(`src/errors.ts`): message is the stringified `error` field when the
body is a non-null object carrying one, else `HTTP ` followed by the
status; code `HTTP_ERROR`; carries the status and the body as cause. -/
def StromboliError.fromResponse (status : Nat) (body : Json) : StromboliError :=
  { message :=
      match body.errField with
      | some v => jsString v
      | none => "HTTP " ++ toString status
    code := "HTTP_ERROR"
    status := some status
    cause := some body }

/-- Embedding of `StromboliError.networkError(cause)` (`src/errors.ts`). -/
def StromboliError.networkError (cause : Json) : StromboliError :=
  { message := "Network request failed", code := "NETWORK_ERROR", status := none,
    cause := some cause }

/-- Embedding of `StromboliError.timeoutError(timeout)` (`src/errors.ts`). -/
def StromboliError.timeoutError (timeout : Nat) : StromboliError :=
  { message := "Request timed out after " ++ toString timeout ++ "ms", code := "TIMEOUT_ERROR" }

/-- Embedding of `StromboliError.abortedError()` (`src/errors.ts`). -/
def StromboliError.abortedError : StromboliError :=
  { message := "Request was aborted", code := "ABORTED" }

/-- The `retryDelay` configuration field: a base number of milliseconds
or a caller-supplied function of (1-based attempt, base delay). -/
inductive RetryDelayCfg where
  | num (base : Nat) : RetryDelayCfg
  | fn (f : Nat → Nat → Nat) : RetryDelayCfg

/-- The `retryBackoff` configuration field. -/
inductive Backoff where
  | linear : Backoff
  | exponential : Backoff
deriving DecidableEq

/-- The resolved client options relevant to the request engine
(`this.options` in `StromboliClient`, after defaulting: timeout 30000,
retries 0, retryDelay 1000, retryBackoff exponential).  The interceptor
hooks (`onRequest`/`onResponse`/`onError`/`debug`) are omitted: they are
observational side effects that do not alter the control flow or the
values verified here. -/
structure ClientOptions where
  timeout : Nat := 30000
  retries : Nat := 0
  retryDelay : RetryDelayCfg := .num 1000
  retryBackoff : Backoff := .exponential

/-- Embedding of `StromboliClient.shouldRetry(error, attempt)`
(`src/client.ts` lines 920-924): false once `attempt > retries`,
otherwise retry exactly on network errors and on errors carrying a
status of at least 500. -/
def shouldRetry (o : ClientOptions) (error : StromboliError) (attempt : Nat) : Bool :=
  if attempt > o.retries then false
  else
    error.code == "NETWORK_ERROR" ||
      (match error.status with
        | some s => decide (s ≥ 500)
        | none => false)

/-- Embedding of `StromboliClient.getRetryDelay(attempt)`
(`src/client.ts` lines 930-942): a function-valued `retryDelay` is
called as `retryDelay(attempt, 1000)` with the literal base 1000;
a numeric one follows the configured backoff strategy. -/
def getRetryDelay (o : ClientOptions) (attempt : Nat) : Nat :=
  match o.retryDelay with
  | .fn f => f attempt 1000
  | .num base =>
    match o.retryBackoff with
    | .exponential => base * 2 ^ (attempt - 1)
    | .linear => base * attempt

/-- What one invocation of the transport (`fn(controller.signal)` inside
`StromboliClient.request`) does on a given attempt:
* `success d` — the transport resolved with truthy `data` and no `error`;
* `httpFailure st b` — the transport resolved but `error || !data` held,
  with response status `st` and error body `b`;
* `thrownAbort extNow` — the transport threw a `DOMException` named
  `AbortError`; `extNow` records whether the external signal was in the
  aborted state at the moment the exception is handled;
* `thrownOther c` — the transport threw any other (non-`StromboliError`)
  value `c`.
The transport never throws a `StromboliError` itself; the
`err instanceof StromboliError` re-throw in the catch block only passes
through the error the engine raised at the `error || !data` branch. -/
inductive AttemptOutcome where
  | success (data : Json) : AttemptOutcome
  | httpFailure (status : Nat) (errBody : Json) : AttemptOutcome
  | thrownAbort (extNow : Bool) : AttemptOutcome
  | thrownOther (cause : Json) : AttemptOutcome

/-- Observable behaviour of one run of the request engine: the final
result, the number of transport invocations performed, and the retry
delays slept (in order). -/
structure RunResult where
  result : Except StromboliError Json
  attemptsUsed : Nat
  delays : List Nat

/-- Whether the external signal, if supplied, is already in the aborted
state when the given attempt starts (the `externalSignal.aborted` check
of `src/client.ts` line 962; absent signal reads as not aborted). -/
def extAbortedAtEntry (ext : Option (Nat → Bool)) (attempt : Nat) : Bool :=
  (ext.map (fun f => f attempt)).getD false

/-- Embedding of `StromboliClient.request(fn, externalSignal, attempt)`
(`src/client.ts` lines 952-1050).  `ext` is the optional external
`AbortSignal`, given as `some f` where `f a` tells whether the signal is
already aborted when attempt `a` starts; `outcomes a` is what the
transport does on attempt `a`.  Per the source: an already-aborted
external signal fails with `abortedError` before the transport is
invoked; an `error || !data` response is classified via `fromResponse`
and retried when `shouldRetry` allows, as is a thrown non-abort value
classified via `networkError`; a thrown abort is classified as
`abortedError` when the external signal is aborted and as
`timeoutError(timeout)` otherwise, never retried. -/
def requestRun (o : ClientOptions) (ext : Option (Nat → Bool))
    (outcomes : Nat → AttemptOutcome) (attempt : Nat) : RunResult :=
  if extAbortedAtEntry ext attempt then
    { result := .error .abortedError, attemptsUsed := 0, delays := [] }
  else
    match outcomes attempt with
    | .success d => { result := .ok d, attemptsUsed := 1, delays := [] }
    | .httpFailure st body =>
      let e := StromboliError.fromResponse st body
      if hr : shouldRetry o e attempt then
        let d := getRetryDelay o attempt
        let rest := requestRun o ext outcomes (attempt + 1)
        { result := rest.result, attemptsUsed := rest.attemptsUsed + 1,
          delays := d :: rest.delays }
      else { result := .error e, attemptsUsed := 1, delays := [] }
    | .thrownAbort extNow =>
      if ext.isSome && extNow then
        { result := .error .abortedError, attemptsUsed := 1, delays := [] }
      else
        { result := .error (.timeoutError o.timeout), attemptsUsed := 1, delays := [] }
    | .thrownOther cause =>
      let e := StromboliError.networkError cause
      if hr : shouldRetry o e attempt then
        let d := getRetryDelay o attempt
        let rest := requestRun o ext outcomes (attempt + 1)
        { result := rest.result, attemptsUsed := rest.attemptsUsed + 1,
          delays := d :: rest.delays }
      else { result := .error e, attemptsUsed := 1, delays := [] }
termination_by o.retries + 1 - attempt
decreasing_by
  all_goals
    simp only [shouldRetry] at hr
    split at hr
    · simp at hr
    · omega

/-- Stream events of the SSE decoder (`StreamEvent` narrowing of
`src/client.ts`; only the variants the decoder loop can emit). -/
inductive SEvent where
  | content (data : String) : SEvent
  | error (msg : String) : SEvent
  | done : SEvent
deriving DecidableEq

/-- Split a character sequence at every newline, JS
`String.prototype.split("\n")` style: the result always carries a final
(possibly empty) fragment after the last newline. -/
def splitOnChar (sep : Char) : List Char → List (List Char)
  | [] => [[]]
  | c :: rest =>
    if c = sep then [] :: splitOnChar sep rest
    else
      match splitOnChar sep rest with
      | [] => [[c]]
      | l :: ls => (c :: l) :: ls

/-- Embedding of the line classification loop of `StromboliClient.stream`
(`src/client.ts` lines 1756-1767) over a batch of complete lines:
returns the events emitted and whether the `[DONE]` sentinel terminated
the generator (the `return` statement), in which case the remaining
lines are not examined. -/
def processLines : List (List Char) → List SEvent × Bool
  | [] => ([], false)
  | line :: rest =>
    if ("data: ".toList).isPrefixOf line then
      let d := line.drop 6
      if d = "[DONE]".toList then ([.done], true)
      else
        let p := processLines rest
        (.content (String.mk d) :: p.1, p.2)
    else if ("error: ".toList).isPrefixOf line then
      let p := processLines rest
      (.error (String.mk (line.drop 7)) :: p.1, p.2)
    else processLines rest

/-- Embedding of the chunk loop of `StromboliClient.stream`
(`src/client.ts` lines 1740-1768): each chunk is appended to the buffer,
the buffer is split on newlines, the trailing fragment becomes the new
buffer, and the complete lines are classified; when the reader reports
completion a final `done` event is synthesized. -/
def streamDecode : List String → List Char → List SEvent
  | [], _ => [.done]
  | chunk :: rest, buffer =>
    let parts := splitOnChar '\n' (buffer ++ chunk.toList)
    let lines := parts.dropLast
    let buf := parts.getLastD []
    let p := processLines lines
    if p.2 then p.1 else p.1 ++ streamDecode rest buf

/-- Events yielded by one stream invocation fed the given decoded
chunks, starting from an empty buffer. -/
def streamEvents (chunks : List String) : List SEvent :=
  streamDecode chunks []

/-- Timer-relevant state of `StromboliClient.stream`: the
`isConnected` flag, whether the idle timer has been armed
(`resetIdleTimer` has run), and whether `controller.abort()` has been
requested by a timer. -/
structure StreamTimerState where
  isConnected : Bool
  idleArmed : Bool
  abortRequested : Bool

/-- State at the start of a stream invocation (`src/client.ts` lines
1679-1682): not connected, idle timer not armed. -/
def initStreamTimerState : StreamTimerState :=
  { isConnected := false, idleArmed := false, abortRequested := false }

/-- Events acting on the stream timer state: the connection being
established (lines 1723-1726), a chunk arriving (line 1750), the
connection timer callback firing (lines 1694-1699), and the idle timer
callback firing (lines 1685-1691). -/
inductive StreamTimerEvent where
  | connect : StreamTimerEvent
  | chunk : StreamTimerEvent
  | connTimerFire : StreamTimerEvent
  | idleTimerFire : StreamTimerEvent

/-- One step of the stream timer state machine, from the source: the
connection timer callback aborts only while `isConnected` is false;
establishing the connection arms the idle timer; each chunk re-arms it;
an armed idle timer firing aborts. -/
def streamTimerStep (s : StreamTimerState) : StreamTimerEvent → StreamTimerState
  | .connect => { s with isConnected := true, idleArmed := true }
  | .chunk => { s with idleArmed := true }
  | .connTimerFire => if s.isConnected then s else { s with abortRequested := true }
  | .idleTimerFire => if s.idleArmed then { s with abortRequested := true } else s

/-- A trace of timer events is program-order valid when every `chunk`
event happens after the connection is established: in the source,
`reader.read()` is only reached after `isConnected = true`. -/
def validTimerTrace (connected : Bool) : List StreamTimerEvent → Bool
  | [] => true
  | .connect :: rest => validTimerTrace true rest
  | .chunk :: rest => connected && validTimerTrace connected rest
  | .connTimerFire :: rest => validTimerTrace connected rest
  | .idleTimerFire :: rest => validTimerTrace connected rest

/-- Run the stream timer machine over a trace of events. -/
def runTimerTrace (s : StreamTimerState) (events : List StreamTimerEvent) : StreamTimerState :=
  events.foldl streamTimerStep s

/-- Embedding of the abort classification of `StromboliClient.stream`
(`src/client.ts` lines 1774-1785): once connected an abort is an idle
timeout, otherwise a connection timeout, each naming its configured
timeout value. -/
def classifyStreamAbort (isConnected : Bool) (connectionTimeout idleTimeout : Nat) :
    StromboliError :=
  if isConnected then
    { message := "Stream idle timeout after " ++ toString idleTimeout ++ "ms",
      code := "IDLE_TIMEOUT" }
  else
    { message := "Stream connection timeout after " ++ toString connectionTimeout ++ "ms",
      code := "CONNECTION_TIMEOUT" }

/-- One poll of `waitForJob`: the status the fetched job reports, and the
wall-clock time `Date.now() - startTime` observed at this iteration's
timeout check. -/
structure PollStep where
  status : String
  elapsed : Nat

/-- Observable outcome of a `waitForJob` run: the returned record, the
number of polls performed, the statuses passed to `onStatusChange` in
order, and the sleeps performed; `starved` marks a run whose poll source
was exhausted before termination (the real loop would keep polling). -/
inductive WaitOutcome where
  | finished (record : PollStep) (polls : Nat) (notes : List String) (sleeps : List Nat) :
      WaitOutcome
  | timedOut (e : StromboliError) (polls : Nat) (notes : List String) (sleeps : List Nat) :
      WaitOutcome
  | starved (polls : Nat) (notes : List String) (sleeps : List Nat) : WaitOutcome

/-- The terminal-status test of `waitForJob` (`src/client.ts` lines
1844-1849). -/
def isTerminalStatus (s : String) : Bool :=
  s == "completed" || s == "failed" || s == "crashed" || s == "cancelled"

/-- Embedding of `StromboliClient.waitForJob` (`src/client.ts` lines
1827-1864).  `steps` supplies, per iteration, the fetched job's status
and the elapsed wall-clock time at the timeout check; `lastStatus` is
the previously observed status (initially `none`).  Per the source: a
status change notifies `onStatusChange`; a terminal status returns the
record; otherwise elapsed time strictly above `maxWaitTime` raises a
`TIMEOUT_ERROR` naming the job id and the configured max wait, and
otherwise the loop sleeps `pollInterval` and continues. -/
def waitForJobRun (jobId : String) (pollInterval maxWaitTime : Nat)
    (lastStatus : Option String) : List PollStep → WaitOutcome
  | [] => .starved 0 [] []
  | step :: rest =>
    let changed : Bool := some step.status != lastStatus
    let notes := if changed then [step.status] else []
    let last := if changed then some step.status else lastStatus
    if isTerminalStatus step.status then .finished step 1 notes []
    else if step.elapsed > maxWaitTime then
      .timedOut
        { message := "Job " ++ jobId ++ " did not complete within " ++
            toString maxWaitTime ++ "ms",
          code := "TIMEOUT_ERROR" }
        1 notes []
    else
      match waitForJobRun jobId pollInterval maxWaitTime last rest with
      | .finished r p ns ss => .finished r (p + 1) (notes ++ ns) (pollInterval :: ss)
      | .timedOut e p ns ss => .timedOut e (p + 1) (notes ++ ns) (pollInterval :: ss)
      | .starved p ns ss => .starved (p + 1) (notes ++ ns) (pollInterval :: ss)

/-- The single mutable field of `StromboliClient`: the stored bearer
token (`this.authToken`). -/
structure ClientAuthState where
  authToken : Option String

/-- Embedding of `StromboliClient.setAuthToken(token)` (`src/client.ts`
lines 1479-1481). -/
def setAuthToken (s : ClientAuthState) (t : String) : ClientAuthState :=
  { s with authToken := some t }

/-- Embedding of the auth middleware registered in the constructor
(`src/client.ts` lines 868-888): every outbound request gets an
`X-Request-ID` header, and an `Authorization: Bearer` header exactly
when the stored token is truthy at request time — the source guards
with `if (this.authToken)`, under which an absent token and the empty
string are both falsy and attach no header. -/
def middlewareHeaders (s : ClientAuthState) (requestId : String) : List (String × String) :=
  ("X-Request-ID", requestId) ::
    (match s.authToken with
      | some t => if t = "" then [] else [("Authorization", "Bearer " ++ t)]
      | none => [])

/-- Embedding of `StromboliClient.logout()` (`src/client.ts` lines
1604-1609): the underlying request runs first; only when it succeeds is
the stored token cleared, while a failing request propagates its error
and leaves the token untouched. -/
def logoutRun (s : ClientAuthState) (requestOutcome : Except StromboliError Unit) :
    Except StromboliError Unit × ClientAuthState :=
  match requestOutcome with
  | .ok _ => (.ok (), { s with authToken := none })
  | .error e => (.error e, s)

/-- Embedding of `API_VERSION_RANGE` (`src/client.ts` line 721). -/
def API_VERSION_RANGE : String := ">=0.3.0-alpha"

/-- Characters stripped from the front by the first `replace` of
`parseVersion` in `isCompatible` (`src/client.ts` line 745). -/
def isRangeChar (c : Char) : Bool :=
  c = '>' || c = '=' || c = '<' || c = '~' || c = '^'

/-- JS regular-expression line terminators, which `.` does not match. -/
def isJsLineTerm (c : Char) : Bool :=
  c = '\n' || c = '\r' || c = '\u2028' || c = '\u2029'

/-- Embedding of the pre-release-stripping `replace` of `parseVersion`
(`src/client.ts` line 745), whose regex is a dash, then any characters,
then the end anchor: drop from the leftmost dash whose whole suffix is
free of line terminators (the leftmost position where the dot-star can
reach the end anchor). -/
def stripPreReleaseChars : List Char → List Char
  | [] => []
  | c :: rest =>
    if c = '-' && !(rest.any isJsLineTerm) then []
    else c :: stripPreReleaseChars rest

/-- Whitespace skipped by JS `Number.parseInt` (the common members of
the WhiteSpace and LineTerminator productions). -/
def isJsSpace (c : Char) : Bool :=
  c = ' ' || c = '\t' || c = '\n' || c = '\r' || c = '\x0b' || c = '\x0c' ||
    c = '\u00A0' || c = '\uFEFF'

/-- Numeric value of a list of decimal digits. -/
def digitsVal (cs : List Char) : Nat :=
  cs.foldl (fun a c => a * 10 + (c.toNat - '0'.toNat)) 0

/-- Leading-digit parse with a sign already consumed; an empty digit run
is `NaN`, which `|| 0` turns into 0 (as does a parsed 0 itself). -/
def parseDigitsOr0 (sign : Int) (cs : List Char) : Int :=
  let ds := cs.takeWhile Char.isDigit
  if ds.isEmpty then 0 else sign * (digitsVal ds : Int)

/-- Embedding of `Number.parseInt(n, 10) || 0` (`src/client.ts` line
746): skip leading whitespace, an optional sign, then the longest run of
decimal digits; no digits parse to 0. -/
def parseIntOr0 (cs : List Char) : Int :=
  match cs.dropWhile isJsSpace with
  | '-' :: rest => parseDigitsOr0 (-1) rest
  | '+' :: rest => parseDigitsOr0 1 rest
  | rest => parseDigitsOr0 1 rest

/-- Embedding of the first `replace` of `parseVersion`, with the regex
anchored at the start matching any run of range-operator characters:
drop the leading run of such characters. -/
def stripRangeChars (cs : List Char) : List Char :=
  cs.dropWhile isRangeChar

/-- Embedding of the local `parseVersion` of `isCompatible`
(`src/client.ts` lines 744-747): strip any leading range operators,
strip the pre-release suffix, split on `.`, and parse each component. -/
def parseVersion (v : String) : List Int :=
  (splitOnChar '.' (stripPreReleaseChars (stripRangeChars v.toList))).map parseIntOr0

/-- Embedding of the comparison loop of `isCompatible` (`src/client.ts`
lines 753-759): walk the first three components, deciding at the first
strict difference, equal triples being compatible. -/
def compareLoop (minVersion currentVersion : List Int) (i : Nat) : Bool :=
  if i < 3 then
    let m := minVersion.getD i 0
    let c := currentVersion.getD i 0
    if c > m then true
    else if c < m then false
    else compareLoop minVersion currentVersion (i + 1)
  else true
termination_by 3 - i

/-- Embedding of `isCompatible(apiVersion)` (`src/client.ts` lines
742-762). -/
def isCompatible (apiVersion : String) : Bool :=
  let minVersion := parseVersion API_VERSION_RANGE
  let currentVersion := parseVersion apiVersion
  compareLoop minVersion currentVersion 0

/-- The major.minor.patch triple a version string parses to (missing
components default to 0, as in the comparison loop). -/
def versionTriple (v : String) : Int × Int × Int :=
  let p := parseVersion v
  (p.getD 0 0, p.getD 1 0, p.getD 2 0)

/-- Spec-side lexicographic order on parsed version triples, written
from the claim's words for comparison against `isCompatible`. -/
def specVersionLexGE (x y : Int × Int × Int) : Prop :=
  x.1 > y.1 ∨ (x.1 = y.1 ∧ (x.2.1 > y.2.1 ∨ (x.2.1 = y.2.1 ∧ x.2.2 ≥ y.2.2)))

instance (x y : Int × Int × Int) : Decidable (specVersionLexGE x y) := by
  unfold specVersionLexGE
  infer_instance

/-- A failing attempt outcome of one of the two retryable kinds: an
HTTP failure with a 5xx status, or a thrown non-abort value (classified
as a network error). -/
def retryableFailureB : AttemptOutcome → Bool
  | .httpFailure st _ => decide (500 ≤ st)
  | .thrownOther _ => true
  | _ => false

/-- The classified error a failing attempt outcome surfaces on the
non-retry path (meaningful for `httpFailure` and `thrownOther`, the two
outcomes `retryableFailureB` can accept). -/
def classifyRetryable : AttemptOutcome → StromboliError
  | .httpFailure st body => .fromResponse st body
  | .thrownOther cause => .networkError cause
  | _ => .abortedError

/-- The `onStatusChange` notifications a `waitForJob` outcome records. -/
def WaitOutcome.notes : WaitOutcome → List String
  | .finished _ _ ns _ => ns
  | .timedOut _ _ ns _ => ns
  | .starved _ ns _ => ns

/-- The number of polls a `waitForJob` outcome records. -/
def WaitOutcome.polls : WaitOutcome → Nat
  | .finished _ p _ _ => p
  | .timedOut _ p _ _ => p
  | .starved p _ _ => p

/-- Spec-side description of the `onStatusChange` discipline, written
from the claim's words: out of a sequence of observed statuses, notify
exactly those that differ from the previously observed one. -/
def specStatusChanges (lastStatus : Option String) : List String → List String
  | [] => []
  | s :: rest =>
    if some s ≠ lastStatus then s :: specStatusChanges (some s) rest
    else specStatusChanges (some s) rest

lemma shouldRetry_iff (o : ClientOptions) (e : StromboliError) (attempt : Nat) :
    shouldRetry o e attempt = true ↔
      (attempt ≤ o.retries ∧
        (e.code = "NETWORK_ERROR" ∨ ∃ s, e.status = some s ∧ 500 ≤ s)) := by
  by_cases hle : attempt ≤ o.retries
  · have hgt : ¬ attempt > o.retries := by omega
    simp only [shouldRetry, hgt, if_false]
    cases hst : e.status with
    | none => simp [hle]
    | some s => simp [hle]
  · have hgt : attempt > o.retries := by omega
    simp [shouldRetry, hgt, hle]

lemma shouldRetry_gt (o : ClientOptions) (e : StromboliError) (attempt : Nat)
    (h : o.retries < attempt) : shouldRetry o e attempt = false := by
  simp [shouldRetry, h]

lemma requestRun_preAborted (o : ClientOptions) (ext : Option (Nat → Bool))
    (outcomes : Nat → AttemptOutcome) (attempt : Nat)
    (h : extAbortedAtEntry ext attempt = true) :
    requestRun o ext outcomes attempt =
      { result := .error .abortedError, attemptsUsed := 0, delays := [] } := by
  rw [requestRun]
  simp [h]

lemma requestRun_success (o : ClientOptions) (ext : Option (Nat → Bool))
    (outcomes : Nat → AttemptOutcome) (attempt : Nat) (d : Json)
    (h : extAbortedAtEntry ext attempt = false)
    (ho : outcomes attempt = .success d) :
    requestRun o ext outcomes attempt =
      { result := .ok d, attemptsUsed := 1, delays := [] } := by
  rw [requestRun]
  simp [h, ho]

lemma requestRun_httpFailure_stop (o : ClientOptions) (ext : Option (Nat → Bool))
    (outcomes : Nat → AttemptOutcome) (attempt st : Nat) (body : Json)
    (h : extAbortedAtEntry ext attempt = false)
    (ho : outcomes attempt = .httpFailure st body)
    (hr : shouldRetry o (.fromResponse st body) attempt = false) :
    requestRun o ext outcomes attempt =
      { result := .error (.fromResponse st body), attemptsUsed := 1, delays := [] } := by
  rw [requestRun]
  simp [h, ho, hr]

lemma requestRun_httpFailure_retry (o : ClientOptions) (ext : Option (Nat → Bool))
    (outcomes : Nat → AttemptOutcome) (attempt st : Nat) (body : Json)
    (h : extAbortedAtEntry ext attempt = false)
    (ho : outcomes attempt = .httpFailure st body)
    (hr : shouldRetry o (.fromResponse st body) attempt = true) :
    requestRun o ext outcomes attempt =
      { result := (requestRun o ext outcomes (attempt + 1)).result,
        attemptsUsed := (requestRun o ext outcomes (attempt + 1)).attemptsUsed + 1,
        delays := getRetryDelay o attempt :: (requestRun o ext outcomes (attempt + 1)).delays } := by
  rw [requestRun]
  simp [h, ho, hr]

lemma requestRun_thrownAbort (o : ClientOptions) (ext : Option (Nat → Bool))
    (outcomes : Nat → AttemptOutcome) (attempt : Nat) (extNow : Bool)
    (h : extAbortedAtEntry ext attempt = false)
    (ho : outcomes attempt = .thrownAbort extNow) :
    requestRun o ext outcomes attempt =
      if ext.isSome && extNow then
        { result := .error .abortedError, attemptsUsed := 1, delays := [] }
      else
        { result := .error (.timeoutError o.timeout), attemptsUsed := 1, delays := [] } := by
  rw [requestRun]
  simp [h, ho]

lemma requestRun_thrownOther_stop (o : ClientOptions) (ext : Option (Nat → Bool))
    (outcomes : Nat → AttemptOutcome) (attempt : Nat) (cause : Json)
    (h : extAbortedAtEntry ext attempt = false)
    (ho : outcomes attempt = .thrownOther cause)
    (hr : shouldRetry o (.networkError cause) attempt = false) :
    requestRun o ext outcomes attempt =
      { result := .error (.networkError cause), attemptsUsed := 1, delays := [] } := by
  rw [requestRun]
  simp [h, ho, hr]

lemma requestRun_thrownOther_retry (o : ClientOptions) (ext : Option (Nat → Bool))
    (outcomes : Nat → AttemptOutcome) (attempt : Nat) (cause : Json)
    (h : extAbortedAtEntry ext attempt = false)
    (ho : outcomes attempt = .thrownOther cause)
    (hr : shouldRetry o (.networkError cause) attempt = true) :
    requestRun o ext outcomes attempt =
      { result := (requestRun o ext outcomes (attempt + 1)).result,
        attemptsUsed := (requestRun o ext outcomes (attempt + 1)).attemptsUsed + 1,
        delays := getRetryDelay o attempt :: (requestRun o ext outcomes (attempt + 1)).delays } := by
  rw [requestRun]
  simp [h, ho, hr]

/-- C1: an attempt's failure is retried iff the 1-based attempt number is
at most the configured `retries` and the classified error is a network
error or carries an HTTP status of at least 500; consequently a 4xx HTTP
failure or a thrown abort (classified aborted/timeout) makes the engine
perform exactly one attempt. -/
theorem request_retry_policy :
    (∀ (o : ClientOptions) (e : StromboliError) (attempt : Nat),
      shouldRetry o e attempt = true ↔
        (attempt ≤ o.retries ∧
          (e.code = "NETWORK_ERROR" ∨ ∃ s, e.status = some s ∧ 500 ≤ s))) ∧
    (∀ (o : ClientOptions) (ext : Option (Nat → Bool)) (outcomes : Nat → AttemptOutcome)
      (st : Nat) (body : Json),
      extAbortedAtEntry ext 1 = false → outcomes 1 = .httpFailure st body →
      400 ≤ st → st < 500 →
      requestRun o ext outcomes 1 =
        { result := .error (.fromResponse st body), attemptsUsed := 1, delays := [] }) ∧
    (∀ (o : ClientOptions) (ext : Option (Nat → Bool)) (outcomes : Nat → AttemptOutcome)
      (extNow : Bool),
      extAbortedAtEntry ext 1 = false → outcomes 1 = .thrownAbort extNow →
      (requestRun o ext outcomes 1).attemptsUsed = 1) := by
  refine ⟨shouldRetry_iff, ?_, ?_⟩
  · intro o ext outcomes st body hext ho _ hlt
    have hsr : shouldRetry o (.fromResponse st body) 1 = false := by
      rw [← Bool.not_eq_true, shouldRetry_iff]
      rintro ⟨-, hcode | ⟨s, hs, hge⟩⟩
      · simp [StromboliError.fromResponse] at hcode
      · simp only [StromboliError.fromResponse] at hs
        injection hs with hs
        omega
    exact requestRun_httpFailure_stop o ext outcomes 1 st body hext ho hsr
  · intro o ext outcomes extNow hext ho
    rw [requestRun_thrownAbort o ext outcomes 1 extNow hext ho]
    cases h : ext.isSome && extNow <;> simp

/-- Witness for `request_retry_policy`: a 404 response from the transport
with retries configured, and a thrown abort, each hypothesis holding at
the concrete input. -/
theorem request_retry_policy_witness :
    (extAbortedAtEntry none 1 = false ∧ 400 ≤ 404 ∧ 404 < 500) ∧
    requestRun { retries := 5 } none (fun _ => .httpFailure 404 .null) 1 =
      { result := .error (.fromResponse 404 .null), attemptsUsed := 1, delays := [] } ∧
    (requestRun {} none (fun _ => .thrownAbort false) 1).attemptsUsed = 1 :=
  ⟨⟨rfl, by decide, by decide⟩,
   request_retry_policy.2.1 { retries := 5 } none _ 404 .null rfl rfl (by decide) (by decide),
   request_retry_policy.2.2 {} none _ false rfl rfl⟩

lemma retryableFailureB_shouldRetry (o : ClientOptions) (out : AttemptOutcome) (a : Nat)
    (ha : a ≤ o.retries) (h : retryableFailureB out = true) :
    shouldRetry o (classifyRetryable out) a = true := by
  cases out with
  | success d => simp [retryableFailureB] at h
  | thrownAbort e => simp [retryableFailureB] at h
  | httpFailure st body =>
    simp only [retryableFailureB, decide_eq_true_eq] at h
    rw [shouldRetry_iff]
    exact ⟨ha, .inr ⟨st, rfl, h⟩⟩
  | thrownOther c =>
    rw [shouldRetry_iff]
    exact ⟨ha, .inl rfl⟩

lemma requestRun_exhausts_aux (o : ClientOptions) (ext : Option (Nat → Bool))
    (outcomes : Nat → AttemptOutcome)
    (hext : ∀ a, extAbortedAtEntry ext a = false) :
    ∀ (n a : Nat), o.retries + 1 - a = n → 1 ≤ a → a ≤ o.retries + 1 →
    (∀ k, a ≤ k → k ≤ o.retries + 1 → retryableFailureB (outcomes k) = true) →
    (requestRun o ext outcomes a).result =
      .error (classifyRetryable (outcomes (o.retries + 1))) ∧
    (requestRun o ext outcomes a).attemptsUsed = o.retries + 2 - a := by
  intro n
  induction n with
  | zero =>
    intro a h0 h1 h2 hall
    have ha : a = o.retries + 1 := by omega
    subst ha
    have hfa := hall _ (le_refl _) (le_refl _)
    cases ho : outcomes (o.retries + 1) with
    | success d => rw [ho] at hfa; simp [retryableFailureB] at hfa
    | thrownAbort e => rw [ho] at hfa; simp [retryableFailureB] at hfa
    | httpFailure st body =>
      rw [requestRun_httpFailure_stop o ext outcomes _ st body (hext _) ho
        (shouldRetry_gt o _ _ (by omega))]
      refine ⟨rfl, ?_⟩
      show 1 = o.retries + 2 - (o.retries + 1)
      omega
    | thrownOther c =>
      rw [requestRun_thrownOther_stop o ext outcomes _ c (hext _) ho
        (shouldRetry_gt o _ _ (by omega))]
      refine ⟨rfl, ?_⟩
      show 1 = o.retries + 2 - (o.retries + 1)
      omega
  | succ n ih =>
    intro a h0 h1 h2 hall
    have ha : a ≤ o.retries := by omega
    have hfa := hall a (le_refl _) (by omega)
    have hnext := ih (a + 1) (by omega) (by omega) (by omega)
      (fun k hk1 hk2 => hall k (by omega) hk2)
    cases ho : outcomes a with
    | success d => rw [ho] at hfa; simp [retryableFailureB] at hfa
    | thrownAbort e => rw [ho] at hfa; simp [retryableFailureB] at hfa
    | httpFailure st body =>
      have hsr := retryableFailureB_shouldRetry o (outcomes a) a ha (by rw [ho]; rw [ho] at hfa; exact hfa)
      rw [ho] at hsr
      simp only [classifyRetryable] at hsr
      rw [requestRun_httpFailure_retry o ext outcomes a st body (hext _) ho hsr]
      exact ⟨hnext.1, by simp [hnext.2]; omega⟩
    | thrownOther c =>
      have hsr := retryableFailureB_shouldRetry o (outcomes a) a ha (by rw [ho]; rw [ho] at hfa; exact hfa)
      rw [ho] at hsr
      simp only [classifyRetryable] at hsr
      rw [requestRun_thrownOther_retry o ext outcomes a c (hext _) ho hsr]
      exact ⟨hnext.1, by simp [hnext.2]; omega⟩

lemma requestRun_early_success_aux (o : ClientOptions) (ext : Option (Nat → Bool))
    (outcomes : Nat → AttemptOutcome) (d : Json)
    (hext : ∀ a, extAbortedAtEntry ext a = false) :
    ∀ (n a k : Nat), k - a = n → 1 ≤ a → a ≤ k → k ≤ o.retries + 1 →
    (∀ j, a ≤ j → j < k → retryableFailureB (outcomes j) = true) →
    outcomes k = .success d →
    (requestRun o ext outcomes a).result = .ok d ∧
    (requestRun o ext outcomes a).attemptsUsed = k + 1 - a := by
  intro n
  induction n with
  | zero =>
    intro a k h0 h1 h2 h3 hpre hk
    have ha : a = k := by omega
    subst ha
    rw [requestRun_success o ext outcomes a d (hext _) hk]
    refine ⟨rfl, ?_⟩
    show 1 = a + 1 - a
    omega
  | succ n ih =>
    intro a k h0 h1 h2 h3 hpre hk
    have ha : a < k := by omega
    have hfa := hpre a (le_refl _) ha
    have hnext := ih (a + 1) k (by omega) (by omega) (by omega) h3
      (fun j hj1 hj2 => hpre j (by omega) hj2) hk
    have hale : a ≤ o.retries := by omega
    cases ho : outcomes a with
    | success e => rw [ho] at hfa; simp [retryableFailureB] at hfa
    | thrownAbort e => rw [ho] at hfa; simp [retryableFailureB] at hfa
    | httpFailure st body =>
      have hsr := retryableFailureB_shouldRetry o (outcomes a) a hale hfa
      rw [ho] at hsr
      simp only [classifyRetryable] at hsr
      rw [requestRun_httpFailure_retry o ext outcomes a st body (hext _) ho hsr]
      exact ⟨hnext.1, by simp [hnext.2]; omega⟩
    | thrownOther c =>
      have hsr := retryableFailureB_shouldRetry o (outcomes a) a hale hfa
      rw [ho] at hsr
      simp only [classifyRetryable] at hsr
      rw [requestRun_thrownOther_retry o ext outcomes a c (hext _) ho hsr]
      exact ⟨hnext.1, by simp [hnext.2]; omega⟩

/-- C2: with retries = N and an external signal never aborted, a run
whose every attempt fails retryably (HTTP 5xx or thrown non-abort
value) performs exactly N+1 transport attempts and surfaces the
classified error of the last attempt itself, while a run whose first
success comes at attempt k (all earlier attempts failing retryably)
stops at attempt k and returns that attempt's payload. -/
theorem request_retry_exhaustion_and_early_stop :
    ∀ (o : ClientOptions) (ext : Option (Nat → Bool)) (outcomes : Nat → AttemptOutcome)
      (d : Json) (k : Nat),
    (∀ a, extAbortedAtEntry ext a = false) →
    ((∀ j, 1 ≤ j → j ≤ o.retries + 1 → retryableFailureB (outcomes j) = true) →
      (requestRun o ext outcomes 1).result =
        .error (classifyRetryable (outcomes (o.retries + 1))) ∧
      (requestRun o ext outcomes 1).attemptsUsed = o.retries + 1) ∧
    (1 ≤ k → k ≤ o.retries + 1 →
      (∀ j, 1 ≤ j → j < k → retryableFailureB (outcomes j) = true) →
      outcomes k = .success d →
      (requestRun o ext outcomes 1).result = .ok d ∧
      (requestRun o ext outcomes 1).attemptsUsed = k) := by
  intro o ext outcomes d k hext
  constructor
  · intro hall
    have h := requestRun_exhausts_aux o ext outcomes hext (o.retries + 1 - 1) 1 rfl
      (le_refl _) (by omega) hall
    exact ⟨h.1, by rw [h.2]; omega⟩
  · intro hk1 hk2 hpre hk
    have h := requestRun_early_success_aux o ext outcomes d hext (k - 1) 1 k (by omega)
      (le_refl _) hk1 hk2 hpre hk
    exact ⟨h.1, by rw [h.2]; omega⟩

/-- Witness for `request_retry_exhaustion_and_early_stop`: three
attempts all failing with HTTP 500 under retries = 2 use exactly 3
attempts; a success on attempt 2 after a network failure stops there. -/
theorem request_retry_exhaustion_and_early_stop_witness :
    ((requestRun { retries := 2 } none (fun _ => .httpFailure 500 .null) 1).result =
        .error (classifyRetryable ((fun _ => AttemptOutcome.httpFailure 500 .null) (2 + 1))) ∧
      (requestRun { retries := 2 } none (fun _ => .httpFailure 500 .null) 1).attemptsUsed = 3) ∧
    ((requestRun { retries := 2 } none
        (fun a => if a = 2 then .success (.str "ok") else .thrownOther .null) 1).result =
        .ok (.str "ok") ∧
      (requestRun { retries := 2 } none
        (fun a => if a = 2 then .success (.str "ok") else .thrownOther .null) 1).attemptsUsed = 2) :=
  ⟨(request_retry_exhaustion_and_early_stop { retries := 2 } none _ (.str "ok") 2
      (fun _ => rfl)).1 (fun _ _ _ => rfl),
   (request_retry_exhaustion_and_early_stop { retries := 2 } none
      (fun a => if a = 2 then .success (.str "ok") else .thrownOther .null) (.str "ok") 2
      (fun _ => rfl)).2 (by decide) (by decide)
      (fun j hj1 hj2 => by
        have : j = 1 := by omega
        subst this
        rfl)
      rfl⟩

/-- C3: for a 1-based retry attempt k, a numeric `retryDelay` base with
exponential backoff gives delay base * 2 ^ (k - 1), with linear backoff
base * k, and a function-valued `retryDelay` is called as fn(k, 1000)
with the literal base 1000 whatever the backoff configuration; the
built-in modes are exact, with no jitter term. -/
theorem retry_delay_numeric_semantics :
    ∀ (t r base k : Nat) (f : Nat → Nat → Nat) (b : Backoff), 1 ≤ k →
      getRetryDelay
        { timeout := t, retries := r, retryDelay := .num base,
          retryBackoff := .exponential } k = base * 2 ^ (k - 1) ∧
      getRetryDelay
        { timeout := t, retries := r, retryDelay := .num base,
          retryBackoff := .linear } k = base * k ∧
      getRetryDelay
        { timeout := t, retries := r, retryDelay := .fn f, retryBackoff := b } k =
        f k 1000 :=
  fun _ _ _ _ _ _ _ => ⟨rfl, rfl, rfl⟩

/-- Witness for `retry_delay_numeric_semantics` at attempt 3 with base
500 and a concrete delay function. -/
theorem retry_delay_numeric_semantics_witness :
    1 ≤ 3 ∧
    (getRetryDelay
        { timeout := 30000, retries := 5, retryDelay := .num 500,
          retryBackoff := .exponential } 3 = 500 * 2 ^ (3 - 1) ∧
      getRetryDelay
        { timeout := 30000, retries := 5, retryDelay := .num 500,
          retryBackoff := .linear } 3 = 500 * 3 ∧
      getRetryDelay
        { timeout := 30000, retries := 5, retryDelay := .fn (fun a b => a * b + 7),
          retryBackoff := .exponential } 3 = (fun (a b : Nat) => a * b + 7) 3 1000) :=
  ⟨by decide,
   retry_delay_numeric_semantics 30000 5 500 3 (fun a b => a * b + 7) .exponential
     (by decide)⟩

/-- C4: fromResponse(status, body) carries code HTTP_ERROR, the given
status, and the body as cause; its message is the stringified `error`
field when the body is a non-null object with an `error` key and
`HTTP status` otherwise, with the claim's two concrete instances. -/
theorem fromResponse_spec :
    (∀ (s : Nat) (b : Json),
      (StromboliError.fromResponse s b).code = "HTTP_ERROR" ∧
      (StromboliError.fromResponse s b).status = some s ∧
      (StromboliError.fromResponse s b).cause = some b) ∧
    (∀ (s : Nat) (b v : Json), b.errField = some v →
      (StromboliError.fromResponse s b).message = jsString v) ∧
    (∀ (s : Nat) (b : Json), b.errField = none →
      (StromboliError.fromResponse s b).message = "HTTP " ++ toString s) ∧
    StromboliError.fromResponse 404 (.obj [("error", .str "Job not found")]) =
      { message := "Job not found", code := "HTTP_ERROR", status := some 404,
        cause := some (.obj [("error", .str "Job not found")]) } ∧
    StromboliError.fromResponse 500 .null =
      { message := "HTTP 500", code := "HTTP_ERROR", status := some 500,
        cause := some .null } := by
  refine ⟨fun s b => ⟨rfl, rfl, rfl⟩, ?_, ?_, rfl, rfl⟩
  · intro s b v h
    simp [StromboliError.fromResponse, h]
  · intro s b h
    simp [StromboliError.fromResponse, h]

/-- Witness for `fromResponse_spec`: a body with an `error` key and a
body without one, the `errField` hypotheses holding definitionally. -/
theorem fromResponse_spec_witness :
    (Json.errField (.obj [("error", .str "boom")]) = some (.str "boom") ∧
      (StromboliError.fromResponse 502 (.obj [("error", .str "boom")])).message =
        jsString (.str "boom")) ∧
    (Json.errField (.arr [.str "x"]) = none ∧
      (StromboliError.fromResponse 503 (.arr [.str "x"])).message = "HTTP " ++ toString 503) :=
  ⟨⟨rfl, fromResponse_spec.2.1 502 (.obj [("error", .str "boom")]) (.str "boom") rfl⟩,
   ⟨rfl, fromResponse_spec.2.2.1 503 (.arr [.str "x"]) rfl⟩⟩

/-- C5: an external signal already aborted at the start of an attempt
fails with the ABORTED error (message `Request was aborted`) before the
transport is invoked (zero transport attempts); a thrown abort becomes
the ABORTED error when the external signal is aborted and otherwise the
TIMEOUT_ERROR naming the configured timeout; a thrown non-classified
value becomes the NETWORK_ERROR (message `Network request failed`)
carrying the value as cause; aborted and timeout errors are never
retried (`shouldRetry` rejects them and a thrown abort always ends the
run at one attempt). -/
theorem abort_timeout_network_classification :
    (∀ (o : ClientOptions) (ext : Option (Nat → Bool)) (outcomes : Nat → AttemptOutcome)
      (attempt : Nat),
      extAbortedAtEntry ext attempt = true →
      requestRun o ext outcomes attempt =
        { result := .error .abortedError, attemptsUsed := 0, delays := [] }) ∧
    StromboliError.abortedError =
      { message := "Request was aborted", code := "ABORTED", status := none, cause := none } ∧
    (∀ (o : ClientOptions) (ext : Option (Nat → Bool)) (outcomes : Nat → AttemptOutcome)
      (attempt : Nat) (extNow : Bool),
      extAbortedAtEntry ext attempt = false → outcomes attempt = .thrownAbort extNow →
      ((ext.isSome && extNow) = true →
        requestRun o ext outcomes attempt =
          { result := .error .abortedError, attemptsUsed := 1, delays := [] }) ∧
      ((ext.isSome && extNow) = false →
        requestRun o ext outcomes attempt =
          { result := .error (.timeoutError o.timeout), attemptsUsed := 1, delays := [] })) ∧
    (∀ (t : Nat), StromboliError.timeoutError t =
      { message := "Request timed out after " ++ toString t ++ "ms", code := "TIMEOUT_ERROR",
        status := none, cause := none }) ∧
    (∀ (c : Json), StromboliError.networkError c =
      { message := "Network request failed", code := "NETWORK_ERROR", status := none,
        cause := some c }) ∧
    (∀ (o : ClientOptions) (ext : Option (Nat → Bool)) (outcomes : Nat → AttemptOutcome)
      (attempt : Nat) (cause : Json),
      extAbortedAtEntry ext attempt = false → outcomes attempt = .thrownOther cause →
      o.retries < attempt →
      requestRun o ext outcomes attempt =
        { result := .error (.networkError cause), attemptsUsed := 1, delays := [] }) ∧
    (∀ (o : ClientOptions) (attempt t : Nat),
      shouldRetry o .abortedError attempt = false ∧
      shouldRetry o (.timeoutError t) attempt = false) := by
  refine ⟨requestRun_preAborted, rfl, ?_, fun t => rfl, fun c => rfl, ?_, ?_⟩
  · intro o ext outcomes attempt extNow hext ho
    constructor
    · intro hcase
      rw [requestRun_thrownAbort o ext outcomes attempt extNow hext ho, hcase]
      rfl
    · intro hcase
      rw [requestRun_thrownAbort o ext outcomes attempt extNow hext ho, hcase]
      rfl
  · intro o ext outcomes attempt cause hext ho hgt
    exact requestRun_thrownOther_stop o ext outcomes attempt cause hext ho
      (shouldRetry_gt o _ _ hgt)
  · intro o attempt t
    constructor
    · rw [← Bool.not_eq_true, shouldRetry_iff]
      rintro ⟨-, hcode | ⟨s, hs, -⟩⟩
      · simp [StromboliError.abortedError] at hcode
      · simp [StromboliError.abortedError] at hs
    · rw [← Bool.not_eq_true, shouldRetry_iff]
      rintro ⟨-, hcode | ⟨s, hs, -⟩⟩
      · simp [StromboliError.timeoutError] at hcode
      · simp [StromboliError.timeoutError] at hs

/-- Witness for `abort_timeout_network_classification`: a pre-aborted
external signal, a thrown abort with and without an aborted external
signal, and a thrown plain value on the last allowed attempt. -/
theorem abort_timeout_network_classification_witness :
    (extAbortedAtEntry (some (fun _ => true)) 1 = true ∧
      requestRun {} (some (fun _ => true)) (fun _ => .success .null) 1 =
        { result := .error .abortedError, attemptsUsed := 0, delays := [] }) ∧
    (requestRun {} (some (fun _ => false)) (fun _ => .thrownAbort true) 1 =
      { result := .error .abortedError, attemptsUsed := 1, delays := [] }) ∧
    (requestRun {} none (fun _ => .thrownAbort false) 1 =
      { result := .error (.timeoutError 30000), attemptsUsed := 1, delays := [] }) ∧
    (requestRun {} none (fun _ => .thrownOther (.str "ECONNREFUSED")) 1 =
      { result := .error (.networkError (.str "ECONNREFUSED")), attemptsUsed := 1,
        delays := [] }) :=
  ⟨⟨rfl, abort_timeout_network_classification.1 {} (some (fun _ => true)) _ 1 rfl⟩,
   (abort_timeout_network_classification.2.2.1 {} (some (fun _ => false)) _ 1 true
      rfl rfl).1 rfl,
   (abort_timeout_network_classification.2.2.1 {} none _ 1 false rfl rfl).2 rfl,
   abort_timeout_network_classification.2.2.2.2.2.1 {} none _ 1 (.str "ECONNREFUSED")
      rfl rfl (by decide)⟩

/-- C6: a complete line prefixed `data: ` yields a content event with
the rest of the line unless that rest is exactly `[DONE]`, which yields
a done event and stops line processing; once the sentinel flag is set
the remaining chunks contribute no further events; a line prefixed
`error: ` yields an error event without setting the flag; any other
line yields nothing; an exhausted source synthesizes a final done
event; and the three-chunk source of the claim yields exactly
content A, content B, done. -/
theorem sse_line_classification :
    (∀ (line : List Char) (rest : List (List Char)),
      ("data: ".toList).isPrefixOf line = true → line.drop 6 ≠ "[DONE]".toList →
      processLines (line :: rest) =
        (.content (String.mk (line.drop 6)) :: (processLines rest).1,
          (processLines rest).2)) ∧
    (∀ (line : List Char) (rest : List (List Char)),
      ("data: ".toList).isPrefixOf line = true → line.drop 6 = "[DONE]".toList →
      processLines (line :: rest) = ([.done], true)) ∧
    (∀ (chunk : String) (rest rest2 : List String) (buffer : List Char),
      (processLines ((splitOnChar '\n' (buffer ++ chunk.toList)).dropLast)).2 = true →
      streamDecode (chunk :: rest) buffer =
        (processLines ((splitOnChar '\n' (buffer ++ chunk.toList)).dropLast)).1 ∧
      streamDecode (chunk :: rest) buffer = streamDecode (chunk :: rest2) buffer) ∧
    (∀ (line : List Char) (rest : List (List Char)),
      ("data: ".toList).isPrefixOf line = false →
      ("error: ".toList).isPrefixOf line = true →
      processLines (line :: rest) =
        (.error (String.mk (line.drop 7)) :: (processLines rest).1,
          (processLines rest).2)) ∧
    (∀ (line : List Char) (rest : List (List Char)),
      ("data: ".toList).isPrefixOf line = false →
      ("error: ".toList).isPrefixOf line = false →
      processLines (line :: rest) = processLines rest) ∧
    (∀ (buffer : List Char), streamDecode [] buffer = [.done]) ∧
    streamEvents ["data: A\n", "data: B\n", "data: [DONE]\n"] =
      [.content "A", .content "B", .done] := by
  refine ⟨?_, ?_, ?_, ?_, ?_, fun _ => rfl, rfl⟩
  · intro line rest h1 h2
    simp at h1 h2
    simp [processLines, h1, h2]
  · intro line rest h1 h2
    simp at h1 h2
    simp [processLines, h1, h2]
  · intro chunk rest rest2 buffer h
    simp only [String.toList] at h
    constructor
    · rw [streamDecode]
      simp [h]
    · rw [streamDecode, streamDecode]
      simp [h]
  · intro line rest h1 h2
    simp at h1 h2
    simp [processLines, h1, h2]
  · intro line rest h1 h2
    simp at h1 h2
    simp [processLines, h1, h2]

/-- Witness for `sse_line_classification`: concrete data, sentinel,
error and ignored lines, and a buffered chunk whose lines end with the
sentinel. -/
theorem sse_line_classification_witness :
    (processLines ["data: hi".toList] = ([.content "hi"], false)) ∧
    (processLines ["data: [DONE]".toList, "data: after".toList] = ([.done], true)) ∧
    (streamDecode ["data: [DONE]\ntail", "data: more\n"] [] = [.done] ∧
      streamDecode ["data: [DONE]\ntail", "data: more\n"] [] =
        streamDecode ["data: [DONE]\ntail"] []) ∧
    (processLines ["error: oops".toList] = ([.error "oops"], false)) ∧
    (processLines ["event: ping".toList] = ([], false)) :=
  ⟨by
    rw [sse_line_classification.1 ("data: hi".toList) [] (by decide) (by decide)]
    rfl,
   sse_line_classification.2.1 ("data: [DONE]".toList) ["data: after".toList]
     (by decide) (by decide),
   sse_line_classification.2.2.1 "data: [DONE]\ntail" ["data: more\n"] [] []
     (by decide),
   by
    rw [sse_line_classification.2.2.2.1 ("error: oops".toList) [] (by decide) (by decide)]
    rfl,
   by
    rw [sse_line_classification.2.2.2.2.1 ("event: ping".toList) [] (by decide) (by decide)]
    rfl⟩

lemma runTimerTrace_cons (s : StreamTimerState) (e : StreamTimerEvent)
    (rest : List StreamTimerEvent) :
    runTimerTrace s (e :: rest) = runTimerTrace (streamTimerStep s e) rest := rfl

lemma timer_invariant (events : List StreamTimerEvent) :
    ∀ (s : StreamTimerState), validTimerTrace s.isConnected events = true →
    (s.idleArmed = true → s.isConnected = true) →
    ((runTimerTrace s events).idleArmed = true → (runTimerTrace s events).isConnected = true) := by
  induction events with
  | nil => intro s _ hinv; exact hinv
  | cons e rest ih =>
    intro s hvalid hinv
    cases e with
    | connect =>
      exact ih _ (by simpa [validTimerTrace] using hvalid) (fun _ => rfl)
    | chunk =>
      simp only [validTimerTrace, Bool.and_eq_true] at hvalid
      exact ih _ hvalid.2 (fun _ => hvalid.1)
    | connTimerFire =>
      simp only [validTimerTrace] at hvalid
      rw [runTimerTrace_cons]
      by_cases hc : s.isConnected
      · rw [show streamTimerStep s .connTimerFire = s from by simp [streamTimerStep, hc]]
        exact ih s hvalid hinv
      · rw [show streamTimerStep s .connTimerFire = { s with abortRequested := true } from by
          simp [streamTimerStep, hc]]
        exact ih _ (by simpa using hvalid) (fun h => hinv h)
    | idleTimerFire =>
      simp only [validTimerTrace] at hvalid
      rw [runTimerTrace_cons]
      by_cases hi : s.idleArmed
      · rw [show streamTimerStep s .idleTimerFire = { s with abortRequested := true } from by
          simp [streamTimerStep, hi]]
        exact ih _ (by simpa using hvalid) (fun h => hinv h)
      · rw [show streamTimerStep s .idleTimerFire = s from by simp [streamTimerStep, hi]]
        exact ih s hvalid hinv

/-- C7: a stream abort is classified by the connection-established flag
(never connected: CONNECTION_TIMEOUT naming the connection timeout;
connected: IDLE_TIMEOUT naming the idle timeout); the connection timer
callback is a no-op once connected; and over any program-order-valid
trace from the initial state the idle timer is armed only once the
connection is established, making the two timer sources mutually
exclusive. -/
theorem stream_timeout_classification :
    (∀ (ct it : Nat),
      classifyStreamAbort false ct it =
        { message := "Stream connection timeout after " ++ toString ct ++ "ms",
          code := "CONNECTION_TIMEOUT", status := none, cause := none } ∧
      classifyStreamAbort true ct it =
        { message := "Stream idle timeout after " ++ toString it ++ "ms",
          code := "IDLE_TIMEOUT", status := none, cause := none }) ∧
    (∀ (s : StreamTimerState), s.isConnected = true → streamTimerStep s .connTimerFire = s) ∧
    (∀ (events : List StreamTimerEvent),
      validTimerTrace initStreamTimerState.isConnected events = true →
      (runTimerTrace initStreamTimerState events).idleArmed = true →
      (runTimerTrace initStreamTimerState events).isConnected = true) := by
  refine ⟨fun ct it => ⟨rfl, rfl⟩, ?_, ?_⟩
  · intro s hc
    simp [streamTimerStep, hc]
  · intro events hvalid
    exact timer_invariant events initStreamTimerState hvalid (by simp [initStreamTimerState])

/-- Witness for `stream_timeout_classification`: an established
connection absorbing a late connection-timer callback, and a valid
trace that connects, receives a chunk, and suffers an idle timeout. -/
theorem stream_timeout_classification_witness :
    (streamTimerStep ⟨true, true, false⟩ .connTimerFire = ⟨true, true, false⟩) ∧
    (validTimerTrace initStreamTimerState.isConnected [.connect, .chunk, .idleTimerFire] = true ∧
      ((runTimerTrace initStreamTimerState [.connect, .chunk, .idleTimerFire]).idleArmed = true →
        (runTimerTrace initStreamTimerState [.connect, .chunk, .idleTimerFire]).isConnected =
          true)) :=
  ⟨stream_timeout_classification.2.1 ⟨true, true, false⟩ rfl,
   ⟨rfl, stream_timeout_classification.2.2 [.connect, .chunk, .idleTimerFire] rfl⟩⟩

lemma waitForJobRun_finished_terminal (jobId : String) (pollInterval maxWaitTime : Nat) :
    ∀ (steps : List PollStep) (lastStatus : Option String) (r : PollStep) (p : Nat)
      (ns : List String) (ss : List Nat),
      waitForJobRun jobId pollInterval maxWaitTime lastStatus steps = .finished r p ns ss →
      isTerminalStatus r.status = true := by
  intro steps
  induction steps with
  | nil =>
    intro lastStatus r p ns ss h
    simp [waitForJobRun] at h
  | cons step rest ih =>
    intro lastStatus r p ns ss h
    rw [waitForJobRun] at h
    by_cases ht : isTerminalStatus step.status = true
    · rw [if_pos ht] at h
      cases h
      exact ht
    · rw [if_neg ht] at h
      by_cases he : step.elapsed > maxWaitTime
      · rw [if_pos he] at h
        simp at h
      · rw [if_neg he] at h
        cases hrec : waitForJobRun jobId pollInterval maxWaitTime
            (if (some step.status != lastStatus) = true then some step.status else lastStatus)
            rest with
        | finished r' p' ns' ss' =>
          rw [hrec] at h
          cases h
          exact ih _ _ _ _ _ hrec
        | timedOut e' p' ns' ss' =>
          rw [hrec] at h
          simp at h
        | starved p' ns' ss' =>
          rw [hrec] at h
          simp at h

lemma waitForJobRun_notes_spec (jobId : String) (pollInterval maxWaitTime : Nat) :
    ∀ (steps : List PollStep) (lastStatus : Option String),
      (waitForJobRun jobId pollInterval maxWaitTime lastStatus steps).notes =
        specStatusChanges lastStatus
          ((steps.take
            (waitForJobRun jobId pollInterval maxWaitTime lastStatus steps).polls).map
            PollStep.status) := by
  intro steps
  induction steps with
  | nil =>
    intro lastStatus
    rfl
  | cons step rest ih =>
    intro lastStatus
    rw [waitForJobRun]
    by_cases hc : (some step.status != lastStatus) = true
    · have hne : some step.status ≠ lastStatus := bne_iff_ne.mp hc
      simp only [hc, if_true]
      by_cases ht : isTerminalStatus step.status = true
      · rw [if_pos ht]
        simp [WaitOutcome.notes, WaitOutcome.polls, specStatusChanges, hne]
      · rw [if_neg ht]
        by_cases he : step.elapsed > maxWaitTime
        · rw [if_pos he]
          simp [WaitOutcome.notes, WaitOutcome.polls, specStatusChanges, hne]
        · rw [if_neg he]
          have hih := ih (some step.status)
          cases hrec : waitForJobRun jobId pollInterval maxWaitTime (some step.status) rest with
          | finished r' p' ns' ss' =>
            rw [hrec] at hih
            simpa [WaitOutcome.notes, WaitOutcome.polls, specStatusChanges, hne,
              List.take_succ_cons] using hih
          | timedOut e' p' ns' ss' =>
            rw [hrec] at hih
            simpa [WaitOutcome.notes, WaitOutcome.polls, specStatusChanges, hne,
              List.take_succ_cons] using hih
          | starved p' ns' ss' =>
            rw [hrec] at hih
            simpa [WaitOutcome.notes, WaitOutcome.polls, specStatusChanges, hne,
              List.take_succ_cons] using hih
    · have heq : some step.status = lastStatus := by
        simpa using hc
      rw [if_neg hc, if_neg hc]
      by_cases ht : isTerminalStatus step.status = true
      · rw [if_pos ht]
        simp [WaitOutcome.notes, WaitOutcome.polls, specStatusChanges, heq]
      · rw [if_neg ht]
        by_cases he : step.elapsed > maxWaitTime
        · rw [if_pos he]
          simp [WaitOutcome.notes, WaitOutcome.polls, specStatusChanges, heq]
        · rw [if_neg he]
          have hih := ih lastStatus
          cases hrec : waitForJobRun jobId pollInterval maxWaitTime lastStatus rest with
          | finished r' p' ns' ss' =>
            rw [hrec] at hih
            simpa [WaitOutcome.notes, WaitOutcome.polls, specStatusChanges, heq,
              List.take_succ_cons] using hih
          | timedOut e' p' ns' ss' =>
            rw [hrec] at hih
            simpa [WaitOutcome.notes, WaitOutcome.polls, specStatusChanges, heq,
              List.take_succ_cons] using hih
          | starved p' ns' ss' =>
            rw [hrec] at hih
            simpa [WaitOutcome.notes, WaitOutcome.polls, specStatusChanges, heq,
              List.take_succ_cons] using hih

/-- C8: `waitForJob` returns the fetched record exactly on polls whose
status is one of completed/failed/crashed/cancelled; `onStatusChange`
fires exactly on polls whose status differs from the previously
observed one; after a non-terminal poll whose elapsed time exceeds the
configured maximum it raises a TIMEOUT_ERROR naming the job id and the
maximum wait; and the claim's running/running/completed source returns
on the third poll having notified exactly running then completed. -/
theorem waitForJob_spec :
    (∀ (st : String), isTerminalStatus st = true ↔
      (st = "completed" ∨ st = "failed" ∨ st = "crashed" ∨ st = "cancelled")) ∧
    (∀ (jobId : String) (pollInterval maxWaitTime : Nat) (lastStatus : Option String)
        (step : PollStep) (rest : List PollStep),
      isTerminalStatus step.status = true →
      waitForJobRun jobId pollInterval maxWaitTime lastStatus (step :: rest) =
        .finished step 1
          (if (some step.status != lastStatus) = true then [step.status] else []) []) ∧
    (∀ (jobId : String) (pollInterval maxWaitTime : Nat) (lastStatus : Option String)
        (step : PollStep) (rest : List PollStep),
      isTerminalStatus step.status = false → maxWaitTime < step.elapsed →
      waitForJobRun jobId pollInterval maxWaitTime lastStatus (step :: rest) =
        .timedOut
          { message := "Job " ++ jobId ++ " did not complete within " ++
              toString maxWaitTime ++ "ms",
            code := "TIMEOUT_ERROR", status := none, cause := none }
          1 (if (some step.status != lastStatus) = true then [step.status] else []) []) ∧
    (∀ (jobId : String) (pollInterval maxWaitTime : Nat) (steps : List PollStep)
        (lastStatus : Option String) (r : PollStep) (p : Nat) (ns : List String)
        (ss : List Nat),
      waitForJobRun jobId pollInterval maxWaitTime lastStatus steps = .finished r p ns ss →
      isTerminalStatus r.status = true) ∧
    (∀ (jobId : String) (pollInterval maxWaitTime : Nat) (steps : List PollStep)
        (lastStatus : Option String),
      (waitForJobRun jobId pollInterval maxWaitTime lastStatus steps).notes =
        specStatusChanges lastStatus
          ((steps.take
            (waitForJobRun jobId pollInterval maxWaitTime lastStatus steps).polls).map
            PollStep.status)) ∧
    waitForJobRun "job-1" 2000 300000 none
        [⟨"running", 0⟩, ⟨"running", 2000⟩, ⟨"completed", 4000⟩] =
      .finished ⟨"completed", 4000⟩ 3 ["running", "completed"] [2000, 2000] := by
  refine ⟨?_, ?_, ?_, ?_, ?_, rfl⟩
  · intro st
    simp [isTerminalStatus]
    tauto
  · intro jobId pollInterval maxWaitTime lastStatus step rest ht
    rw [waitForJobRun, if_pos ht]
  · intro jobId pollInterval maxWaitTime lastStatus step rest ht he
    have ht' : ¬ isTerminalStatus step.status = true := by simp [ht]
    rw [waitForJobRun, if_neg ht', if_pos he]
  · intro jobId pollInterval maxWaitTime steps lastStatus r p ns ss h
    exact waitForJobRun_finished_terminal jobId pollInterval maxWaitTime steps lastStatus
      r p ns ss h
  · intro jobId pollInterval maxWaitTime steps lastStatus
    exact waitForJobRun_notes_spec jobId pollInterval maxWaitTime steps lastStatus

/-- Witness for `waitForJob_spec`: a terminal first poll, a non-terminal
poll past the deadline, and a finished run, each hypothesis holding at
the concrete input. -/
theorem waitForJob_spec_witness :
    (isTerminalStatus "completed" = true ∧
      waitForJobRun "j" 100 5000 none [⟨"completed", 0⟩] =
        .finished ⟨"completed", 0⟩ 1
          (if (some "completed" != (none : Option String)) = true then ["completed"] else [])
          []) ∧
    (isTerminalStatus "running" = false ∧ 50 < 60 ∧
      waitForJobRun "j" 100 50 none [⟨"running", 60⟩] =
        .timedOut
          { message := "Job " ++ "j" ++ " did not complete within " ++ toString 50 ++ "ms",
            code := "TIMEOUT_ERROR", status := none, cause := none }
          1 (if (some "running" != (none : Option String)) = true then ["running"] else [])
          []) ∧
    isTerminalStatus (PollStep.mk "completed" 4000).status = true :=
  ⟨⟨rfl, waitForJob_spec.2.1 "j" 100 5000 none ⟨"completed", 0⟩ [] rfl⟩,
   ⟨rfl, by decide, waitForJob_spec.2.2.1 "j" 100 50 none ⟨"running", 60⟩ [] rfl (by decide)⟩,
   waitForJob_spec.2.2.2.1 "job-1" 2000 300000
     [⟨"running", 0⟩, ⟨"running", 2000⟩, ⟨"completed", 4000⟩] none
     ⟨"completed", 4000⟩ 3 ["running", "completed"] [2000, 2000] rfl⟩

/-- C9 counterexample to the claim as stated: `setAuthToken("")` stores
the empty string, which is falsy under the source's
`if (this.authToken)` guard, so the next request carries no
`Authorization: Bearer ` header at all — the claimed header for the
stored token `t` is absent at `t = ""`. -/
theorem auth_token_empty_string_counterexample :
    ¬ ("Authorization", "Bearer " ++ "") ∈
      middlewareHeaders (setAuthToken ⟨none⟩ "") "req-1" := by
  decide

/-- C9 (amended): after `setAuthToken(t)` with a non-empty token (the
empty string is falsy in the middleware's `if (this.authToken)` guard
and attaches no header) every request built from the current state
carries `Authorization: Bearer t`; a succeeding `logout` clears the
token so subsequently built requests omit the Authorization header; a
failing `logout` propagates its error and leaves the token unchanged;
and in general the Authorization header is present exactly for a
stored non-empty token. -/
theorem auth_token_header_lifecycle :
    (∀ (s : ClientAuthState) (t requestId : String), t ≠ "" →
      middlewareHeaders (setAuthToken s t) requestId =
        [("X-Request-ID", requestId), ("Authorization", "Bearer " ++ t)]) ∧
    (∀ (s : ClientAuthState) (requestId : String),
      middlewareHeaders (logoutRun s (.ok ())).2 requestId = [("X-Request-ID", requestId)]) ∧
    (∀ (s : ClientAuthState) (e : StromboliError),
      logoutRun s (.error e) = (.error e, s)) ∧
    (∀ (s : ClientAuthState), (logoutRun s (.ok ())).2.authToken = none) ∧
    (∀ (s : ClientAuthState) (requestId v : String),
      ("Authorization", v) ∈ middlewareHeaders s requestId ↔
        ∃ t, s.authToken = some t ∧ t ≠ "" ∧ v = "Bearer " ++ t) := by
  refine ⟨?_, fun s requestId => rfl, fun s e => rfl, fun s => rfl, ?_⟩
  · intro s t requestId ht
    simp [middlewareHeaders, setAuthToken, ht]
  · intro s requestId v
    cases h : s.authToken with
    | none =>
      simp [middlewareHeaders, h]
    | some t =>
      by_cases ht : t = ""
      · subst ht
        simp [middlewareHeaders, h]
      · simp [middlewareHeaders, h, ht]

/-- Witness for `auth_token_header_lifecycle`: the non-empty token
`tok`, whose bearer header the middleware attaches. -/
theorem auth_token_header_lifecycle_witness :
    ("tok" : String) ≠ "" ∧
    middlewareHeaders (setAuthToken ⟨none⟩ "tok") "req-1" =
      [("X-Request-ID", "req-1"), ("Authorization", "Bearer " ++ "tok")] :=
  ⟨by decide, auth_token_header_lifecycle.1 ⟨none⟩ "tok" "req-1" (by decide)⟩

lemma compareLoop_done (minVersion currentVersion : List Int) :
    compareLoop minVersion currentVersion 3 = true := by
  rw [compareLoop]
  norm_num

lemma compareLoop_step (minVersion currentVersion : List Int) (i : Nat) (h : i < 3) :
    compareLoop minVersion currentVersion i =
      (if currentVersion.getD i 0 > minVersion.getD i 0 then true
        else if currentVersion.getD i 0 < minVersion.getD i 0 then false
        else compareLoop minVersion currentVersion (i + 1)) := by
  rw [compareLoop]
  rw [if_pos h]

lemma compareLoop_zero_iff (minVersion currentVersion : List Int) :
    compareLoop minVersion currentVersion 0 = true ↔
      specVersionLexGE
        (currentVersion.getD 0 0, currentVersion.getD 1 0, currentVersion.getD 2 0)
        (minVersion.getD 0 0, minVersion.getD 1 0, minVersion.getD 2 0) := by
  rw [compareLoop_step _ _ 0 (by omega), compareLoop_step _ _ 1 (by omega),
    compareLoop_step _ _ 2 (by omega), compareLoop_done]
  simp only [specVersionLexGE]
  split_ifs <;> simp_all <;> omega

/-- C10: isCompatible(apiVersion) is true exactly when the parsed
major.minor.patch triple (range operators stripped from the front, the
pre-release suffix stripped, missing or non-numeric components read as
0) is lexicographically at least (0, 3, 0); the claim's five concrete
versions behave as stated and the result is monotone in the parsed
triple. -/
theorem isCompatible_spec :
    (∀ (v : String), isCompatible v = true ↔ specVersionLexGE (versionTriple v) (0, 3, 0)) ∧
    isCompatible "0.3.0" = true ∧
    isCompatible "0.3.0-alpha" = true ∧
    isCompatible "1.0.0" = true ∧
    isCompatible "0.2.9" = false ∧
    isCompatible "" = false ∧
    (∀ (v w : String), specVersionLexGE (versionTriple w) (versionTriple v) →
      isCompatible v = true → isCompatible w = true) := by
  have hmin : parseVersion API_VERSION_RANGE = [0, 3, 0] := by decide
  have hiff : ∀ v, isCompatible v = true ↔ specVersionLexGE (versionTriple v) (0, 3, 0) := by
    intro v
    have hdef : isCompatible v =
        compareLoop (parseVersion API_VERSION_RANGE) (parseVersion v) 0 := rfl
    rw [hdef, hmin, compareLoop_zero_iff]
    exact Iff.rfl
  refine ⟨hiff, ?_, ?_, ?_, ?_, ?_, ?_⟩
  · rw [hiff]; decide
  · rw [hiff]; decide
  · rw [hiff]; decide
  · cases h : isCompatible "0.2.9" with
    | false => rfl
    | true => exact absurd ((hiff _).mp h) (by decide)
  · cases h : isCompatible "" with
    | false => rfl
    | true => exact absurd ((hiff _).mp h) (by decide)
  · intro v w hle hv
    rw [hiff] at hv ⊢
    simp only [specVersionLexGE] at hle hv ⊢
    omega

/-- Witness for `isCompatible_spec`: the monotonicity conjunct applied
to the concrete pair 0.3.0 and 2.0.0-beta. -/
theorem isCompatible_spec_witness :
    specVersionLexGE (versionTriple "2.0.0-beta") (versionTriple "0.3.0") ∧
    isCompatible "0.3.0" = true ∧
    isCompatible "2.0.0-beta" = true :=
  ⟨by decide, isCompatible_spec.2.1,
   isCompatible_spec.2.2.2.2.2.2 "0.3.0" "2.0.0-beta" (by decide) isCompatible_spec.2.1⟩
